import Mathlib

/-!
Verification development for the snapshot-based build-test harness
(`src/run.rs`).  The Rust source is shallowly embedded: paths become an
explicit sum of valid-UTF-8 strings and raw byte sequences (mirroring
`PathBuf`/`to_str`), the filesystem becomes an explicit state record,
and the external build tool (`cargo::build_test` / `cargo::run_test`)
and the glob resolver become oracles passed as parameters.
-/

namespace Trybuild

/-! ### String helpers (structural, kernel-reducible) -/

/-- Whether `a` is a prefix of `b`, on character lists. -/
def listIsPfx : List Char → List Char → Bool
  | [], _ => true
  | _ :: _, [] => false
  | a :: as', b :: bs => a = b && listIsPfx as' bs

/-- Whether `a` is a suffix of `b`, on character lists. -/
def listIsSfx (a b : List Char) : Bool :=
  listIsPfx a.reverse b.reverse

/-- Split a character list at every occurrence of `sep` (like
`str::split` on a single character: `n` separators yield `n+1` pieces). -/
def splitOnChar (sep : Char) : List Char → List (List Char)
  | [] => [[]]
  | c :: rest =>
    match splitOnChar sep rest with
    | [] => if c = sep then [[], []] else [[c]]
    | cur :: more => if c = sep then [] :: cur :: more else (c :: cur) :: more

/-- Join character lists with a separator character. -/
def intercalateChar (sep : Char) : List (List Char) → List Char
  | [] => []
  | [x] => x
  | x :: y :: rest => x ++ sep :: intercalateChar sep (y :: rest)

/-- Fuel-driven core of `strReplace`; the fuel is the length of the
remaining text, so the recursion is structural and kernel-reducible. -/
def replaceAux (pat rep : List Char) : Nat → List Char → List Char
  | _, [] => []
  | 0, s => s
  | fuel + 1, c :: rest =>
    if pat ≠ [] ∧ listIsPfx pat (c :: rest) then
      rep ++ replaceAux pat rep fuel (List.drop pat.length (c :: rest))
    else
      c :: replaceAux pat rep fuel rest

/-- Model of Rust `str::replace`: replace every non-overlapping
occurrence of `pat` in `s` by `rep`, left to right. -/
def strReplace (s pat rep : String) : String :=
  String.mk (replaceAux pat.toList rep.toList s.toList.length s.toList)

/-- Model of Rust `str::contains(char)`. -/
def strContainsChar (s : String) (c : Char) : Bool :=
  s.toList.contains c

/-- Model of Rust `str::ends_with`. -/
def strEndsWith (s suffx : String) : Bool :=
  listIsSfx suffx.toList s.toList

/-- Drop the last `n` characters of a string. -/
def strDropRight (s : String) (n : Nat) : String :=
  String.mk (s.toList.take (s.toList.length - n))

example : strReplace "a\r\nb\r\n" "\r\n" "\n" = "a\nb\n" := by decide
example : strReplace "foo-bar-baz" "-" "_" = "foo_bar_baz" := by decide
example : strContainsChar "tests/*.rs" '*' = true := by decide
example : strContainsChar "tests/a?.rs" '*' = false := by decide

/-! ### Paths

Rust `PathBuf` holds an OS string that may or may not be valid UTF-8;
`Path::to_str` yields `Some` exactly on valid UTF-8.  We embed this as a
sum: a valid-UTF-8 path carries its string, any other path carries its
raw bytes.  Byte-level path surgery reuses the string algorithms through
a one-byte-per-character (Latin-1 style) view, which is faithful for the
separator and dot bytes the algorithms inspect. -/

inductive RPath where
  | utf8 (s : String)
  | nonUtf8 (bytes : List Nat)
deriving DecidableEq

/-- Model of `Path::to_str`. -/
def RPath.toStr : RPath → Option String
  | .utf8 s => some s
  | .nonUtf8 _ => none

/-- One-byte-per-character view of raw bytes. -/
def bytesToLatin1 (b : List Nat) : String :=
  String.mk (b.map Char.ofNat)

/-- Inverse of `bytesToLatin1` on its range. -/
def latin1ToBytes (s : String) : List Nat :=
  s.toList.map Char.toNat

/-- Model of `Path::file_name`: the last path component, skipping empty
and `.` components; `none` when the path is empty or terminates in `..`. -/
def pathFileName (p : String) : Option String :=
  match ((splitOnChar '/' p.toList).filter (fun c => c ≠ [] ∧ c ≠ ['.'])).getLast? with
  | none => none
  | some c => if c = ['.', '.'] then none else some (String.mk c)

/-- Model of `Path::file_stem` restricted to a bare file name: the part
before the final dot, except that a name whose only dot is leading, or
that has no dot, is its own stem. -/
def fileStemOfName (name : String) : String :=
  match splitOnChar '.' name.toList with
  | [] => name
  | [_] => name
  | parts =>
    match intercalateChar '.' parts.dropLast with
    | [] => name
    | stem => String.mk stem

/-- Model of `Path::file_stem`. -/
def pathFileStem (p : String) : Option String :=
  (pathFileName p).map fileStemOfName

/-- Model of `Path::with_extension` on strings: replace the extension of
the file name; a path with no file name is returned unchanged. -/
def pathWithExtension (p ext : String) : String :=
  match pathFileName p with
  | none => p
  | some name =>
    let stem := fileStemOfName name
    let newName := if ext = "" then stem else stem ++ "." ++ ext
    if strEndsWith p name then strDropRight p name.toList.length ++ newName else p

/-- `Path::with_extension` lifted to `RPath`. -/
def RPath.withExtension : RPath → String → RPath
  | .utf8 s, ext => .utf8 (pathWithExtension s ext)
  | .nonUtf8 b, ext => .nonUtf8 (latin1ToBytes (pathWithExtension (bytesToLatin1 b) ext))

/-- `Path::file_name` lifted to `RPath`. -/
def RPath.fileName : RPath → Option RPath
  | .utf8 s => (pathFileName s).map .utf8
  | .nonUtf8 b => (pathFileName (bytesToLatin1 b)).map (fun n => .nonUtf8 (latin1ToBytes n))

/-- `Path::file_stem` lifted to `RPath`. -/
def RPath.fileStem : RPath → Option RPath
  | .utf8 s => (pathFileStem s).map .utf8
  | .nonUtf8 b => (pathFileStem (bytesToLatin1 b)).map (fun n => .nonUtf8 (latin1ToBytes n))

/-- Model of `Path::join` for a relative base and a child component. -/
def RPath.join : RPath → RPath → RPath
  | .utf8 a, .utf8 b => .utf8 (a ++ "/" ++ b)
  | .utf8 a, .nonUtf8 b => .nonUtf8 (latin1ToBytes a ++ [47] ++ b)
  | .nonUtf8 a, .utf8 b => .nonUtf8 (a ++ [47] ++ latin1ToBytes b)
  | .nonUtf8 a, .nonUtf8 b => .nonUtf8 (a ++ [47] ++ b)

/-- Model of `OsStr::to_string_lossy`.  A valid-UTF-8 path is its own
string; for raw bytes we take the Latin-1 view with bytes outside ASCII
replaced by the replacement character (an approximation of UTF-8 lossy
decoding; no theorem evaluates it on non-UTF-8 data). -/
def RPath.lossy : RPath → String
  | .utf8 s => s
  | .nonUtf8 b => String.mk (b.map (fun n => if n < 128 then Char.ofNat n else '�'))

example : pathFileName "tests/ui/foo-bar.rs" = some "foo-bar.rs" := by decide
example : pathFileStem "tests/ui/foo-bar.rs" = some "foo-bar" := by decide
example : pathWithExtension "tests/ui/foo.rs" "stderr" = "tests/ui/foo.stderr" := by decide
example : pathFileStem "tests/.rs" = some ".rs" := by decide
example : pathFileName "tests/.." = none := by decide

/-! ### Filesystem model

An idealized deterministic filesystem: a finite map from paths to file
contents plus a set of directories.  `exists` is ground truth, writes
and directory creation always succeed (I/O faults such as a full disk
are outside the model), and reading an existing file yields its
contents. -/

structure FS where
  files : List (RPath × String)
  dirs : List RPath
deriving DecidableEq

/-- Model of `fs::read_to_string` (and the contents lookup behind it). -/
def FS.read_to_string (fs : FS) (p : RPath) : Option String :=
  (fs.files.find? (fun e => e.1 = p)).map (fun e => e.2)

/-- Model of `Path::exists`. -/
def FS.pathExists (fs : FS) (p : RPath) : Bool :=
  (fs.read_to_string p).isSome || fs.dirs.contains p

/-- Model of `fs::write`. -/
def FS.write (fs : FS) (p : RPath) (contents : String) : FS :=
  { fs with files := (p, contents) :: fs.files.filter (fun e => e.1 ≠ p) }

/-- Model of `fs::create_dir_all`. -/
def FS.create_dir_all (fs : FS) (p : RPath) : FS :=
  { fs with dirs := if fs.dirs.contains p then fs.dirs else p :: fs.dirs }

/-! ### Core data model (`Expected`, `Test`, errors, messages) -/

/-- The two-state expectation policy of a test. -/
inductive Expected where
  | Pass
  | CompileFail
deriving DecidableEq

/-- A declared test: a path (possibly a glob pattern) and an expected
outcome. -/
structure Test where
  path : RPath
  expected : Expected
deriving DecidableEq

/-- Exit status and captured output of an external build/run
invocation. -/
structure Output where
  success : Bool
  stdout : String
  stderr : String
deriving DecidableEq

/-- Modelled from the spec: the error kinds of `error.rs`, which is not
among the sources; `run.rs` is authoritative for where each kind is
produced.  Payloads follow the spec's error taxonomy: the build-failed
kind carries the normalized diagnostics, the mismatch kind carries both
texts for diff display. -/
inductive Error where
  | PkgName
  | ProjectDir
  | Open (path : RPath)
  | CargoFail (stderr : String)
  | RunFailed
  | ShouldNotHaveCompiled
  | Mismatch (expected actual : String)
  | ReadStderr
  | WriteStderr
  | Glob (message : String)
deriving DecidableEq

/-- The user-facing messages emitted through the `message` module
(terminal rendering itself is out of scope; we record which message was
emitted with which payload). -/
inductive Msg where
  | begin_test (t : Test)
  | failed_to_build (stderr : String)
  | output (stderr : String) (out : Output)
  | should_not_have_compiled
  | warnings (stderr : String)
  | write_stderr (wip_path stderr_path : RPath) (stderr : String)
  | nice
  | mismatch (expected actual : String)
  | test_fail (e : Error)
deriving DecidableEq

/-- Observable events of one test's execution: messages plus the
external build/run invocations. -/
inductive Event where
  | msg (m : Msg)
  | cargoBuild (name : String)
  | cargoRun (name : String)
deriving DecidableEq

/-- Result of executing (part of) one test: the `Result<()>` value, the
filesystem after any side effects, and the emitted events in order. -/
structure CheckResult where
  result : Except Error Unit
  fs : FS
  events : List Event

/-- Per-test environment: the filesystem and the black-box results of
`cargo::build_test` and `cargo::run_test` for this test's target. -/
structure Env where
  fs : FS
  build_test : Except Error Output
  run_test : Except Error Output

/-- Modelled from the spec: `normalize::diagnostics` (`normalize.rs` is
not among the sources).  The spec requires a total deterministic
canonicalization of raw diagnostics, unifying line endings; no claim
depends on its internals, so only the line-ending unification is
modelled. -/
def normalizeDiagnostics (raw : String) : String :=
  strReplace raw "\r\n" "\n"

/-! ### Test executor (`impl Test` in `run.rs`) -/

/-- `Test::name`: the file stem (or, lacking one, the whole path),
lossily decoded, with every `-` replaced by `_`. -/
def Test.name (t : Test) : String :=
  strReplace ((t.path.fileStem.getD t.path).lossy) "-" "_"

/-- `Test::check_pass` (run.rs lines 182-197): a failed build fails the
test with the build-failed kind; a successful build runs the binary via
`cargo::run_test`, reports its output, and succeeds exactly when the
run exited successfully. -/
def Test.check_pass (t : Test) (env : Env) (success : Bool) (stderr : String) : CheckResult :=
  if success = false then
    { result := .error (.CargoFail stderr), fs := env.fs,
      events := [.msg (.failed_to_build stderr)] }
  else
    match env.run_test with
    | .error e => { result := .error e, fs := env.fs, events := [.cargoRun t.name] }
    | .ok out =>
      { result := if out.success then .ok () else .error .RunFailed,
        fs := env.fs,
        events := [.cargoRun t.name, .msg (.output stderr out)] }

/-- `Test::check_compile_fail` (run.rs lines 199-230): an unexpected
build success fails with the should-not-have-compiled kind; otherwise
the fixture at the path with extension `stderr` is consulted: if absent,
the diagnostics are staged under `wip` and the test succeeds; if
present, it is read, line-ending normalized, and compared byte for byte. -/
def Test.check_compile_fail (t : Test) (env : Env) (success : Bool) (stderr : String) : CheckResult :=
  if success = true then
    { result := .error .ShouldNotHaveCompiled, fs := env.fs,
      events := [.msg .should_not_have_compiled, .msg (.warnings stderr)] }
  else
    let stderr_path := t.path.withExtension "stderr"
    if env.fs.pathExists stderr_path = false then
      let wip_dir : RPath := .utf8 "wip"
      let fs1 := env.fs.create_dir_all wip_dir
      let stderr_name := stderr_path.fileName.getD (.utf8 "test.stderr")
      let wip_path := wip_dir.join stderr_name
      { result := .ok (), fs := fs1.write wip_path stderr,
        events := [.msg (.write_stderr wip_path stderr_path stderr)] }
    else
      match env.fs.read_to_string stderr_path with
      | none => { result := .error .ReadStderr, fs := env.fs, events := [] }
      | some raw =>
        let expected := strReplace raw "\r\n" "\n"
        if expected = stderr then
          { result := .ok (), fs := env.fs, events := [.msg .nice] }
        else
          { result := .error (.Mismatch expected stderr), fs := env.fs,
            events := [.msg (.mismatch expected stderr)] }

/-- `check_exists` (run.rs lines 233-241): `exists` is ground truth in
the filesystem model, so the `File::open` fallback fails exactly when
the file is absent. -/
def check_exists (fs : FS) (p : RPath) : Except Error Unit :=
  if fs.pathExists p then .ok () else .error (.Open p)

/-- `Test::run` (run.rs lines 165-180): announce the test, require the
source file to exist, build the synthetic target, normalize the captured
diagnostics, and dispatch on the expectation. -/
def Test.run (t : Test) (env : Env) : CheckResult :=
  let ev0 : List Event := [.msg (.begin_test t)]
  match check_exists env.fs t.path with
  | .error e => { result := .error e, fs := env.fs, events := ev0 }
  | .ok _ =>
    match env.build_test with
    | .error e => { result := .error e, fs := env.fs, events := ev0 ++ [.cargoBuild t.name] }
    | .ok out =>
      let success := out.success
      let stderr := normalizeDiagnostics out.stderr
      let r :=
        match t.expected with
        | .Pass => t.check_pass env success stderr
        | .CompileFail => t.check_compile_fail env success stderr
      { r with events := ev0 ++ [.cargoBuild t.name] ++ r.events }

/-! ### Glob expansion (`expand_globs`, `ExpandedTest`) -/

/-- A concrete expansion of a declared test, possibly carrying an
expansion-time error reported lazily at run time. -/
structure ExpandedTest where
  test : Test
  error : Option Error
deriving DecidableEq

/-- The body of `expand_globs`' loop for one declared test: the glob
branch when the path is valid UTF-8 and contains `*`, otherwise the
unchanged pass-through. -/
def expandOne (globFn : String → Except Error (List RPath)) (test : Test) : List ExpandedTest :=
  match test.path.toStr with
  | some utf8 =>
    if strContainsChar utf8 '*' then
      match globFn utf8 with
      | .ok paths => paths.map (fun path => { test := { path, expected := test.expected }, error := none })
      | .error e => [{ test, error := some e }]
    else [{ test, error := none }]
  | none => [{ test, error := none }]

/-- `expand_globs` (run.rs lines 248-289).  Glob resolution (the `glob`
crate) is an external oracle `globFn` from a pattern to either the
matched paths in filesystem order or an error. -/
def expand_globs (globFn : String → Except Error (List RPath)) (tests : List Test) : List ExpandedTest :=
  tests.flatMap (expandOne globFn)

/-- Whether a declared path is treated as a glob pattern: it must be
valid UTF-8 and contain the character `*`. -/
def isGlobPattern : RPath → Bool
  | .utf8 s => strContainsChar s '*'
  | .nonUtf8 _ => false

/-- `ExpandedTest::run` (run.rs lines 291-301): a deferred expansion
error is reported as this test's failure; otherwise the test runs. -/
def ExpandedTest.run (x : ExpandedTest) (env : Env) : CheckResult :=
  match x.error with
  | none => x.test.run env
  | some e => { result := .error e, fs := env.fs, events := [.msg (.begin_test x.test)] }

/-! ### Synthetic project manifest (`Runner::make_manifest`)

The manifest record types live in `manifest.rs`, which is not among the
sources; they are modelled from the spec's data model (§3): package
identity, a dependency map with unique keys whose order is irrelevant,
and an ordered list of binary targets.  The construction itself is
`run.rs`'s `make_manifest`, which is authoritative. -/

/-- Modelled from the spec: a dependency declaration (version and/or
local path; the spec's "other manifest fields" are opaque and omitted). -/
structure Dependency where
  version : Option String
  path : Option RPath
deriving DecidableEq

/-- Modelled from the spec: one synthetic binary target. -/
structure Bin where
  name : String
  path : RPath
deriving DecidableEq

/-- Modelled from the spec: package identity of the throwaway project. -/
structure Package where
  name : String
  version : String
deriving DecidableEq

/-- Modelled from the spec: the in-memory synthetic project definition.
The dependency map (a `BTreeMap` in the source) is an association list
with unique keys; the spec declares its order irrelevant. -/
structure Manifest where
  package : Package
  dependencies : List (String × Dependency)
  bins : List Bin
deriving DecidableEq

/-- Key-unique insertion into the dependency map (model of
`BTreeMap::insert`; ordering of the map is irrelevant per the spec). -/
def mapInsert (m : List (String × Dependency)) (k : String) (v : Dependency) : List (String × Dependency) :=
  (k, v) :: m.filter (fun e => e.1 ≠ k)

/-- The throwaway project (`struct Project` in run.rs). -/
structure Project where
  dir : RPath
  target_dir : RPath
  name : String
deriving DecidableEq

/-- Modelled from the spec: the harness state (`Runner`, declared
outside run.rs) holding the declared tests and extra dependency
declarations. -/
structure Runner where
  tests : List Test
  deps : List (String × Dependency)

/-- `Runner::make_manifest` (run.rs lines 83-139).  The ambient
`CARGO_MANIFEST_DIR` lookup becomes the `manifest_dir` parameter
(`none` models an unset variable, which is the `ProjectDir` error).
One bin is the fixed `main.rs` entry named after the project; then one
bin per expanded test without an expansion error, named `Test::name`
and pointing at the test source under the manifest directory. -/
def Runner.make_manifest (r : Runner) (crate_name : String) (project : Project)
    (manifest_dir? : Option RPath) (tests : List ExpandedTest) : Except Error Manifest :=
  match manifest_dir? with
  | none => .error .ProjectDir
  | some manifest_dir =>
    let deps0 := mapInsert [] crate_name { version := none, path := some manifest_dir }
    let deps := r.deps.foldl
      (fun m kv => mapInsert m kv.1 { kv.2 with path := kv.2.path.map (fun p => manifest_dir.join p) })
      deps0
    let bins0 : List Bin := [{ name := project.name, path := .utf8 "main.rs" }]
    let bins := bins0 ++ (tests.filter (fun e => e.error = none)).map
      (fun e => { name := e.test.name, path := manifest_dir.join e.test.path })
    .ok { package := { name := project.name, version := "0.0.0" },
          dependencies := deps, bins := bins }

/-! ### Result aggregation (`Runner::run`, lines 35-54)

`Runner::run` first expands globs and prepares the project (aborting on
a preparation error before any test executes); the portion after a
successful preparation is modelled here, with per-test execution
abstracted as the oracle `exec` (the `Result<()>` of
`ExpandedTest::run`). -/

/-- Observable events of the aggregation loop. -/
inductive RunEvent where
  | noTestsEnabled
  | ran (t : ExpandedTest)
  | failed (e : Error)
deriving DecidableEq

/-- Outcome of the aggregation loop: emitted events, the failure
counter, and the panic message when the run terminates abnormally. -/
structure RunReport where
  events : List RunEvent
  failures : Nat
  panicMsg : Option String
deriving DecidableEq

/-- One iteration of the `for test in tests` loop: run the test, and on
an error emit the failure message and bump the counter. -/
def runStep (exec : ExpandedTest → Except Error Unit) (acc : List RunEvent × Nat) (t : ExpandedTest) :
    List RunEvent × Nat :=
  match exec t with
  | .ok _ => (acc.1 ++ [.ran t], acc.2)
  | .error e => (acc.1 ++ [.ran t, .failed e], acc.2 + 1)

/-- The aggregation portion of `Runner::run`: an empty list emits the
no-tests-enabled notice; otherwise every test runs in order while
failures accumulate; the run panics with a failed-of-total message
exactly when the counter is nonzero. -/
def runTests (exec : ExpandedTest → Except Error Unit) (tests : List ExpandedTest) : RunReport :=
  let len := tests.length
  let acc :=
    if tests.isEmpty then ([RunEvent.noTestsEnabled], 0)
    else tests.foldl (runStep exec) ([], 0)
  { events := acc.1, failures := acc.2,
    panicMsg :=
      if acc.2 > 0 then
        some (toString acc.2 ++ " of " ++ toString len ++ " tests failed")
      else none }

/-- The events one loop iteration appends (the value `runStep` adds to
its accumulator). -/
def stepEvents (exec : ExpandedTest → Except Error Unit) (t : ExpandedTest) : List RunEvent :=
  match exec t with
  | .ok _ => [.ran t]
  | .error e => [.ran t, .failed e]

/-- Whether a per-test result is a failure. -/
def exceptIsErr : Except Error Unit → Bool
  | .ok _ => false
  | .error _ => true

/-- Recover the executed test from a run event. -/
def ranOf : RunEvent → Option ExpandedTest
  | .ran t => some t
  | _ => none

/-! ## Helper lemmas -/

theorem FS.read_to_string_write (fs : FS) (p : RPath) (c : String) :
    (fs.write p c).read_to_string p = some c := by
  simp [FS.write, FS.read_to_string]

theorem expandOne_of_not_pattern (globFn : String → Except Error (List RPath)) (t : Test)
    (h : isGlobPattern t.path = false) :
    expandOne globFn t = [{ test := t, error := none }] := by
  cases hp : t.path with
  | utf8 s =>
    rw [hp] at h
    simp only [isGlobPattern] at h
    simp [expandOne, hp, RPath.toStr, h]
  | nonUtf8 b =>
    simp [expandOne, hp, RPath.toStr]

theorem expand_globs_append (globFn : String → Except Error (List RPath)) (l r : List Test) :
    expand_globs globFn (l ++ r) = expand_globs globFn l ++ expand_globs globFn r := by
  simp [expand_globs]

theorem expand_globs_cons (globFn : String → Except Error (List RPath)) (t : Test) (ts : List Test) :
    expand_globs globFn (t :: ts) = expandOne globFn t ++ expand_globs globFn ts := by
  simp [expand_globs]

/-! ## Claims -/

/-- C1.  For every compile-fail-expected test whose build fails and
whose golden fixture file (path with extension replaced by `stderr`)
does not exist, `check_compile_fail` stages the normalized diagnostics
in the fixed `wip` subdirectory (announcing the staged write) and the
test is reported as a success, never as a failure. -/
theorem check_compile_fail_missing_fixture (t : Test) (env : Env) (stderr : String)
    (h : env.fs.pathExists (t.path.withExtension "stderr") = false) :
    (t.check_compile_fail env false stderr).result = Except.ok ()
    ∧ (t.check_compile_fail env false stderr).fs.read_to_string
        ((RPath.utf8 "wip").join ((t.path.withExtension "stderr").fileName.getD (RPath.utf8 "test.stderr")))
      = some stderr
    ∧ (t.check_compile_fail env false stderr).events
      = [Event.msg (Msg.write_stderr
          ((RPath.utf8 "wip").join ((t.path.withExtension "stderr").fileName.getD (RPath.utf8 "test.stderr")))
          (t.path.withExtension "stderr") stderr)] := by
  simp [Test.check_compile_fail, h, FS.read_to_string_write]

/-- Witness for C1: bootstrapping a concrete test against an empty
filesystem stages `wip/example.stderr` and succeeds. -/
theorem check_compile_fail_missing_fixture_witness :
    (Test.check_compile_fail { path := .utf8 "tests/ui/example.rs", expected := .CompileFail }
        { fs := { files := [], dirs := [] }, build_test := .ok { success := false, stdout := "", stderr := "" },
          run_test := .ok { success := true, stdout := "", stderr := "" } }
        false "error: mismatched types\n").result = Except.ok () :=
  (check_compile_fail_missing_fixture
    { path := .utf8 "tests/ui/example.rs", expected := .CompileFail }
    { fs := { files := [], dirs := [] }, build_test := .ok { success := false, stdout := "", stderr := "" },
      run_test := .ok { success := true, stdout := "", stderr := "" } }
    "error: mismatched types\n" (by decide)).1

/-- C2.  For every compile-fail-expected test whose build fails and
whose fixture exists, `check_compile_fail` reads the fixture, replaces
every CRLF by LF, and succeeds exactly when the normalized fixture text
equals the freshly normalized diagnostics; on inequality it fails with
the mismatch kind carrying both texts. -/
theorem check_compile_fail_fixture_cmp (t : Test) (env : Env) (stderr raw : String)
    (h : env.fs.read_to_string (t.path.withExtension "stderr") = some raw) :
    ((t.check_compile_fail env false stderr).result = Except.ok ()
      ↔ strReplace raw "\r\n" "\n" = stderr)
    ∧ (strReplace raw "\r\n" "\n" ≠ stderr →
        (t.check_compile_fail env false stderr).result
          = Except.error (Error.Mismatch (strReplace raw "\r\n" "\n") stderr)) := by
  have hex : env.fs.pathExists (t.path.withExtension "stderr") = true := by
    simp [FS.pathExists, h]
  by_cases hc : strReplace raw "\r\n" "\n" = stderr <;>
    simp [Test.check_compile_fail, hex, h, hc]

/-- Witness for C2: a concrete CRLF fixture matching LF diagnostics
after normalization succeeds. -/
theorem check_compile_fail_fixture_cmp_witness :
    (Test.check_compile_fail { path := .utf8 "tests/ui/example.rs", expected := .CompileFail }
        { fs := { files := [(.utf8 "tests/ui/example.stderr", "error: oops\r\n")], dirs := [] },
          build_test := .ok { success := false, stdout := "", stderr := "" },
          run_test := .ok { success := true, stdout := "", stderr := "" } }
        false "error: oops\n").result = Except.ok () :=
  ((check_compile_fail_fixture_cmp
    { path := .utf8 "tests/ui/example.rs", expected := .CompileFail }
    { fs := { files := [(.utf8 "tests/ui/example.stderr", "error: oops\r\n")], dirs := [] },
      build_test := .ok { success := false, stdout := "", stderr := "" },
      run_test := .ok { success := true, stdout := "", stderr := "" } }
    "error: oops\n" "error: oops\r\n" (by decide)).1).mpr (by decide)

/-- C3.  For every pass-expected test: a failed build fails the test
with the build-failed kind carrying the normalized diagnostics; a
successful build runs the resulting binary, and the test succeeds
exactly when the run exits successfully, failing with the run-failed
kind otherwise. -/
theorem check_pass_policy (t : Test) (env : Env) (stderr : String) :
    ((t.check_pass env false stderr).result = Except.error (Error.CargoFail stderr))
    ∧ (∀ out, env.run_test = Except.ok out →
        (Event.cargoRun t.name ∈ (t.check_pass env true stderr).events)
        ∧ ((t.check_pass env true stderr).result = Except.ok () ↔ out.success = true)
        ∧ (out.success = false →
            (t.check_pass env true stderr).result = Except.error Error.RunFailed)) := by
  refine ⟨by simp [Test.check_pass], fun out hout => ?_⟩
  cases hs : out.success <;> simp [Test.check_pass, hout, hs]

/-- Witness for C3: with a build failure the concrete test fails with
the build-failed kind, and with a successful build and failing run it
fails with the run-failed kind. -/
theorem check_pass_policy_witness :
    (Test.check_pass { path := .utf8 "tests/ok.rs", expected := .Pass }
        { fs := { files := [], dirs := [] },
          build_test := .ok { success := true, stdout := "", stderr := "" },
          run_test := .ok { success := false, stdout := "boom", stderr := "" } }
        false "error: no\n").result = Except.error (Error.CargoFail "error: no\n")
    ∧ (Test.check_pass { path := .utf8 "tests/ok.rs", expected := .Pass }
        { fs := { files := [], dirs := [] },
          build_test := .ok { success := true, stdout := "", stderr := "" },
          run_test := .ok { success := false, stdout := "boom", stderr := "" } }
        true "").result = Except.error Error.RunFailed :=
  ⟨(check_pass_policy { path := .utf8 "tests/ok.rs", expected := .Pass }
      { fs := { files := [], dirs := [] },
        build_test := .ok { success := true, stdout := "", stderr := "" },
        run_test := .ok { success := false, stdout := "boom", stderr := "" } }
      "error: no\n").1,
   ((check_pass_policy { path := .utf8 "tests/ok.rs", expected := .Pass }
      { fs := { files := [], dirs := [] },
        build_test := .ok { success := true, stdout := "", stderr := "" },
        run_test := .ok { success := false, stdout := "boom", stderr := "" } }
      "").2 { success := false, stdout := "boom", stderr := "" } rfl).2.2 rfl⟩

/-- C4.  For every compile-fail-expected test whose build succeeds, the
test fails with the should-not-have-compiled kind, the warnings are
surfaced, the binary is never run (no `cargo::run_test` invocation
occurs, whatever the run oracle would return), and the filesystem is
untouched. -/
theorem check_compile_fail_unexpected_success (t : Test) (env : Env) (stderr : String) :
    ((t.check_compile_fail env true stderr).result = Except.error Error.ShouldNotHaveCompiled)
    ∧ (Event.msg (Msg.warnings stderr) ∈ (t.check_compile_fail env true stderr).events)
    ∧ (∀ n, Event.cargoRun n ∉ (t.check_compile_fail env true stderr).events)
    ∧ (t.check_compile_fail env true stderr).fs = env.fs := by
  simp [Test.check_compile_fail]

/-- Witness for C4: a concrete compile-fail test whose build succeeded
(and whose binary would have run successfully) fails with the
should-not-have-compiled kind. -/
theorem check_compile_fail_unexpected_success_witness :
    (Test.check_compile_fail { path := .utf8 "tests/bad.rs", expected := .CompileFail }
        { fs := { files := [], dirs := [] },
          build_test := .ok { success := true, stdout := "", stderr := "warning: unused\n" },
          run_test := .ok { success := true, stdout := "", stderr := "" } }
        true "warning: unused\n").result = Except.error Error.ShouldNotHaveCompiled :=
  (check_compile_fail_unexpected_success { path := .utf8 "tests/bad.rs", expected := .CompileFail }
    { fs := { files := [], dirs := [] },
      build_test := .ok { success := true, stdout := "", stderr := "warning: unused\n" },
      run_test := .ok { success := true, stdout := "", stderr := "" } }
    "warning: unused\n").1

/-- C5.  Glob expansion maps every spec whose path is not treated as a
wildcard pattern to itself, one `ExpandedTest` with no error, in order;
on a list of only non-wildcard specs it is the identity (no filesystem
is consulted, so this holds whether or not the paths exist). -/
theorem expand_globs_identity (globFn : String → Except Error (List RPath)) (tests : List Test)
    (h : ∀ t ∈ tests, isGlobPattern t.path = false) :
    expand_globs globFn tests = tests.map (fun t => { test := t, error := none }) := by
  induction tests with
  | nil => rfl
  | cons t ts ih =>
    rw [expand_globs_cons, expandOne_of_not_pattern globFn t (h t (by simp)),
      ih (fun x hx => h x (by simp [hx]))]
    rfl

/-- Witness for C5: a concrete two-element list of non-wildcard paths
(one of which exists nowhere) expands to itself. -/
theorem expand_globs_identity_witness :
    expand_globs (fun _ => Except.error (Error.Glob "unused"))
        [ { path := .utf8 "tests/one.rs", expected := .Pass },
          { path := .utf8 "tests/does-not-exist.rs", expected := .CompileFail } ]
      = [ { test := { path := .utf8 "tests/one.rs", expected := .Pass }, error := none },
          { test := { path := .utf8 "tests/does-not-exist.rs", expected := .CompileFail }, error := none } ] :=
  expand_globs_identity (fun _ => Except.error (Error.Glob "unused"))
    [ { path := .utf8 "tests/one.rs", expected := .Pass },
      { path := .utf8 "tests/does-not-exist.rs", expected := .CompileFail } ]
    (by decide)

/-- C6.  A wildcard spec whose pattern resolves to `N` files expands to
exactly those `N` tests, in the resolver's order, each inheriting the
spec's expected outcome, in place in the declaration order; a spec whose
resolution fails is retained as a single `ExpandedTest` carrying the
error, and executing that `ExpandedTest` reports exactly that error. -/
theorem expand_globs_wildcard (globFn : String → Except Error (List RPath))
    (pre post : List Test) (t : Test) (s : String)
    (hs : t.path.toStr = some s) (hw : strContainsChar s '*' = true) :
    (∀ paths, globFn s = Except.ok paths →
      expand_globs globFn (pre ++ t :: post)
        = expand_globs globFn pre
          ++ paths.map (fun p => { test := { path := p, expected := t.expected }, error := none })
          ++ expand_globs globFn post)
    ∧ (∀ e, globFn s = Except.error e →
        expand_globs globFn (pre ++ t :: post)
          = expand_globs globFn pre ++ [{ test := t, error := some e }] ++ expand_globs globFn post
        ∧ ∀ env, (ExpandedTest.run { test := t, error := some e } env).result = Except.error e) := by
  cases hp : t.path with
  | nonUtf8 b => rw [hp] at hs; simp [RPath.toStr] at hs
  | utf8 s' =>
    rw [hp] at hs
    simp only [RPath.toStr, Option.some.injEq] at hs
    subst hs
    constructor
    · intro paths hok
      rw [expand_globs_append, expand_globs_cons]
      simp [expandOne, hp, RPath.toStr, hw, hok]
    · intro e herr
      refine ⟨?_, fun env => rfl⟩
      rw [expand_globs_append, expand_globs_cons]
      simp [expandOne, hp, RPath.toStr, hw, herr]

/-- Witness for C6: a concrete pattern resolving to two files expands in
place to the two matches with the inherited outcome, and a failing
pattern is retained carrying its error and fails with it at run time. -/
theorem expand_globs_wildcard_witness :
    expand_globs
        (fun p => if p = "tests/ui/*.rs"
          then Except.ok [.utf8 "tests/ui/a.rs", .utf8 "tests/ui/b.rs"]
          else Except.error (Error.Glob "bad pattern"))
        [ { path := .utf8 "tests/first.rs", expected := .Pass },
          { path := .utf8 "tests/ui/*.rs", expected := .CompileFail } ]
      = [ { test := { path := .utf8 "tests/first.rs", expected := .Pass }, error := none },
          { test := { path := .utf8 "tests/ui/a.rs", expected := .CompileFail }, error := none },
          { test := { path := .utf8 "tests/ui/b.rs", expected := .CompileFail }, error := none } ]
    ∧ expand_globs
        (fun _ => Except.error (Error.Glob "bad pattern"))
        [ { path := .utf8 "tests/ui/**bad*", expected := .Pass } ]
      = [ { test := { path := .utf8 "tests/ui/**bad*", expected := .Pass },
            error := some (Error.Glob "bad pattern") } ] :=
  ⟨by
    have h := (expand_globs_wildcard
      (fun p => if p = "tests/ui/*.rs"
        then Except.ok [.utf8 "tests/ui/a.rs", .utf8 "tests/ui/b.rs"]
        else Except.error (Error.Glob "bad pattern"))
      [ { path := .utf8 "tests/first.rs", expected := .Pass } ] []
      { path := .utf8 "tests/ui/*.rs", expected := .CompileFail }
      "tests/ui/*.rs" rfl (by decide)).1
      [.utf8 "tests/ui/a.rs", .utf8 "tests/ui/b.rs"] (by simp)
    simpa using h,
   by
    have h := ((expand_globs_wildcard
      (fun _ => Except.error (Error.Glob "bad pattern")) [] []
      { path := .utf8 "tests/ui/**bad*", expected := .Pass }
      "tests/ui/**bad*" rfl (by decide)).2
      (Error.Glob "bad pattern") rfl).1
    simpa using h⟩

/-- C10.  A spec's path is consulted as a glob pattern exactly when it
is valid UTF-8 and contains `*`: any path without a `*` in its UTF-8
view (including ones with `?` or `[`) and any non-UTF-8 path pass
through unchanged as a single non-wildcard `ExpandedTest`, while a
starred UTF-8 path is resolved through the glob oracle. -/
theorem expand_globs_star_gate (globFn : String → Except Error (List RPath)) (t : Test) :
    ((∀ s, t.path.toStr = some s → strContainsChar s '*' = false) →
      expand_globs globFn [t] = [{ test := t, error := none }])
    ∧ (∀ s, t.path.toStr = some s → strContainsChar s '*' = true →
      expand_globs globFn [t]
        = match globFn s with
          | .ok paths => paths.map (fun p => { test := { path := p, expected := t.expected }, error := none })
          | .error e => [{ test := t, error := some e }]) := by
  constructor
  · intro h
    rw [expand_globs_cons, expand_globs, List.flatMap_nil, List.append_nil]
    apply expandOne_of_not_pattern
    cases hp : t.path with
    | utf8 s => simpa [isGlobPattern] using h s (by rw [hp]; rfl)
    | nonUtf8 b => rfl
  · intro s hs hw
    cases hp : t.path with
    | nonUtf8 b => rw [hp] at hs; simp [RPath.toStr] at hs
    | utf8 s' =>
      rw [hp] at hs
      simp only [RPath.toStr, Option.some.injEq] at hs
      subst hs
      rw [expand_globs_cons, expand_globs, List.flatMap_nil, List.append_nil]
      cases hg : globFn s' <;> simp [expandOne, hp, RPath.toStr, hw, hg]

/-- Witness for C10: a path with `?` and `[` but no `*`, and a
non-UTF-8 path (the invalid byte 0xFF), both pass through unchanged. -/
theorem expand_globs_star_gate_witness :
    expand_globs (fun _ => Except.error (Error.Glob "unused"))
        [ { path := .utf8 "tests/a?b[0].rs", expected := .Pass } ]
      = [ { test := { path := .utf8 "tests/a?b[0].rs", expected := .Pass }, error := none } ]
    ∧ expand_globs (fun _ => Except.error (Error.Glob "unused"))
        [ { path := .nonUtf8 [116, 255, 42], expected := .Pass } ]
      = [ { test := { path := .nonUtf8 [116, 255, 42], expected := .Pass }, error := none } ] :=
  ⟨(expand_globs_star_gate (fun _ => Except.error (Error.Glob "unused"))
      { path := .utf8 "tests/a?b[0].rs", expected := .Pass }).1 (by decide),
   (expand_globs_star_gate (fun _ => Except.error (Error.Glob "unused"))
      { path := .nonUtf8 [116, 255, 42], expected := .Pass }).1 (by decide)⟩

theorem foldl_runStep (exec : ExpandedTest → Except Error Unit) (tests : List ExpandedTest)
    (evs : List RunEvent) (n : Nat) :
    tests.foldl (runStep exec) (evs, n)
      = (evs ++ tests.flatMap (stepEvents exec),
         n + tests.countP (fun t => exceptIsErr (exec t))) := by
  induction tests generalizing evs n with
  | nil => simp
  | cons t ts ih =>
    cases he : exec t with
    | ok u =>
      simp [List.foldl_cons, runStep, he, ih, stepEvents, exceptIsErr, List.countP_cons]
    | error e =>
      simp [List.foldl_cons, runStep, he, ih, stepEvents, exceptIsErr, List.countP_cons]
      omega

theorem filterMap_ranOf_stepEvents (exec : ExpandedTest → Except Error Unit)
    (tests : List ExpandedTest) :
    (tests.flatMap (stepEvents exec)).filterMap ranOf = tests := by
  induction tests with
  | nil => rfl
  | cons t ts ih =>
    cases he : exec t <;>
      simp [stepEvents, he, ranOf, ih]

theorem runTests_events (exec : ExpandedTest → Except Error Unit) (tests : List ExpandedTest)
    (h : tests.isEmpty = false) :
    (runTests exec tests).events = tests.flatMap (stepEvents exec) := by
  simp [runTests, h, foldl_runStep]

theorem runTests_failures (exec : ExpandedTest → Except Error Unit) (tests : List ExpandedTest)
    (h : tests.isEmpty = false) :
    (runTests exec tests).failures = tests.countP (fun t => exceptIsErr (exec t)) := by
  simp [runTests, h, foldl_runStep]

theorem runTests_panicMsg (exec : ExpandedTest → Except Error Unit) (tests : List ExpandedTest) :
    (runTests exec tests).panicMsg
      = if (runTests exec tests).failures > 0 then
          some (toString (runTests exec tests).failures ++ " of "
            ++ toString tests.length ++ " tests failed")
        else none :=
  rfl

/-- C7.  After a successful preparation, the aggregation loop runs every
expanded test in declaration order to completion (the executed tests
read off the event log are exactly the input list), the failure counter
counts exactly the failing tests, and the run terminates abnormally —
with a message counting failed out of total — exactly when that counter
is nonzero. -/
theorem runTests_to_completion (exec : ExpandedTest → Except Error Unit)
    (tests : List ExpandedTest) (h : tests ≠ []) :
    ((runTests exec tests).events.filterMap ranOf = tests)
    ∧ ((runTests exec tests).failures = tests.countP (fun t => exceptIsErr (exec t)))
    ∧ ((runTests exec tests).panicMsg.isSome ↔ (runTests exec tests).failures ≠ 0)
    ∧ ((runTests exec tests).failures ≠ 0 →
        (runTests exec tests).panicMsg
          = some (toString (runTests exec tests).failures ++ " of "
              ++ toString tests.length ++ " tests failed")) := by
  have hne : tests.isEmpty = false := by
    cases tests with
    | nil => exact absurd rfl h
    | cons a as => rfl
  refine ⟨?_, runTests_failures exec tests hne, ?_, ?_⟩
  · rw [runTests_events exec tests hne]
    exact filterMap_ranOf_stepEvents exec tests
  · rw [runTests_panicMsg]
    by_cases h0 : (runTests exec tests).failures = 0
    · rw [h0]
      simp
    · rw [if_pos (Nat.pos_of_ne_zero h0)]
      simp [h0]
  · intro h0
    rw [runTests_panicMsg, if_pos (Nat.pos_of_ne_zero h0)]

/-- Witness for C7: two concrete tests, the second failing, are both
executed; the counter is 1 and the run panics with "1 of 2 tests
failed". -/
theorem runTests_to_completion_witness :
    ((runTests
        (fun x => if x.test.expected = .Pass then Except.ok () else Except.error Error.RunFailed)
        [ { test := { path := .utf8 "tests/a.rs", expected := .Pass }, error := none },
          { test := { path := .utf8 "tests/b.rs", expected := .CompileFail }, error := none } ]).events.filterMap ranOf
      = [ { test := { path := .utf8 "tests/a.rs", expected := .Pass }, error := none },
          { test := { path := .utf8 "tests/b.rs", expected := .CompileFail }, error := none } ])
    ∧ (runTests
        (fun x => if x.test.expected = .Pass then Except.ok () else Except.error Error.RunFailed)
        [ { test := { path := .utf8 "tests/a.rs", expected := .Pass }, error := none },
          { test := { path := .utf8 "tests/b.rs", expected := .CompileFail }, error := none } ]).panicMsg
      = some "1 of 2 tests failed" :=
  ⟨(runTests_to_completion
      (fun x => if x.test.expected = .Pass then Except.ok () else Except.error Error.RunFailed)
      [ { test := { path := .utf8 "tests/a.rs", expected := .Pass }, error := none },
        { test := { path := .utf8 "tests/b.rs", expected := .CompileFail }, error := none } ]
      (by decide)).1,
   by
    have h := (runTests_to_completion
      (fun x => if x.test.expected = .Pass then Except.ok () else Except.error Error.RunFailed)
      [ { test := { path := .utf8 "tests/a.rs", expected := .Pass }, error := none },
        { test := { path := .utf8 "tests/b.rs", expected := .CompileFail }, error := none } ]
      (by decide)).2.2.2 (by decide)
    simpa using h⟩

/-- C9.  An empty expanded test list emits the no-tests-enabled notice
and the run terminates normally (no panic message), rather than a
silent success. -/
theorem runTests_no_tests (exec : ExpandedTest → Except Error Unit) :
    runTests exec [] = { events := [RunEvent.noTestsEnabled], failures := 0, panicMsg := none } :=
  rfl

/-- Counterexample for C8: two distinct declared tests (`foo-bar.rs`
and `foo_bar.rs`) receive the same synthetic binary target name, so the
manifest carries two bins named `foo_bar`; moreover the dot in a stem
such as `a.b-c` is kept, so only hyphens are normalized, not every
non-alphanumeric separator. -/
theorem make_manifest_duplicate_bin_names :
    Runner.make_manifest { tests := [], deps := [] } "mycrate"
        { dir := .utf8 "target/tests/mycrate", target_dir := .utf8 "target", name := "mycrate-tests" }
        (some (.utf8 "/home/user/mycrate"))
        [ { test := { path := .utf8 "tests/foo-bar.rs", expected := .Pass }, error := none },
          { test := { path := .utf8 "tests/foo_bar.rs", expected := .Pass }, error := none } ]
      = Except.ok
        { package := { name := "mycrate-tests", version := "0.0.0" },
          dependencies := [("mycrate", { version := none, path := some (.utf8 "/home/user/mycrate") })],
          bins :=
            [ { name := "mycrate-tests", path := .utf8 "main.rs" },
              { name := "foo_bar", path := .utf8 "/home/user/mycrate/tests/foo-bar.rs" },
              { name := "foo_bar", path := .utf8 "/home/user/mycrate/tests/foo_bar.rs" } ] }
    ∧ (RPath.utf8 "tests/foo-bar.rs" ≠ RPath.utf8 "tests/foo_bar.rs")
    ∧ Test.name { path := .utf8 "tests/a.b-c.rs", expected := .Pass } = "a.b_c" :=
  ⟨rfl, by decide, by decide⟩

/-- C8 (amended).  The synthetic binary target name is the test file's
stem with hyphens replaced by underscores, and the manifest registers
exactly one bin per error-free expanded test, in order, under that name
(after the fixed entry bin); distinct tests may share a name, uniqueness
being a caller obligation the code does not enforce. -/
theorem make_manifest_bins (r : Runner) (crate_name : String) (project : Project)
    (dir : RPath) (tests : List ExpandedTest) (m : Manifest)
    (h : r.make_manifest crate_name project (some dir) tests = Except.ok m) :
    m.bins = { name := project.name, path := RPath.utf8 "main.rs" } ::
        (tests.filter (fun e => e.error = none)).map
          (fun e => { name := e.test.name, path := dir.join e.test.path })
    ∧ Test.name { path := .utf8 "tests/foo-bar.rs", expected := .Pass } = "foo_bar" := by
  simp only [Runner.make_manifest, Except.ok.injEq] at h
  subst h
  exact ⟨rfl, by decide⟩

/-- Witness for C8 (amended): a concrete manifest whose bins are the
entry bin followed by one bin per error-free expanded test. -/
theorem make_manifest_bins_witness :
    ({ package := { name := "c-tests", version := "0.0.0" },
       dependencies := [("c", { version := none, path := some (.utf8 "/m") })],
       bins :=
         [ { name := "c-tests", path := .utf8 "main.rs" },
           { name := "one", path := .utf8 "/m/tests/one.rs" } ] } : Manifest).bins
      = { name := "c-tests", path := RPath.utf8 "main.rs" } ::
          ([ ({ test := { path := .utf8 "tests/one.rs", expected := .Pass }, error := none } : ExpandedTest),
             { test := { path := .utf8 "tests/two.rs", expected := .Pass },
               error := some (Error.Glob "bad") } ].filter (fun e => e.error = none)).map
            (fun e => { name := e.test.name, path := (RPath.utf8 "/m").join e.test.path }) :=
  (make_manifest_bins { tests := [], deps := [] } "c"
    { dir := .utf8 "d", target_dir := .utf8 "t", name := "c-tests" }
    (.utf8 "/m")
    [ { test := { path := .utf8 "tests/one.rs", expected := .Pass }, error := none },
      { test := { path := .utf8 "tests/two.rs", expected := .Pass },
        error := some (Error.Glob "bad") } ]
    { package := { name := "c-tests", version := "0.0.0" },
      dependencies := [("c", { version := none, path := some (.utf8 "/m") })],
      bins :=
        [ { name := "c-tests", path := .utf8 "main.rs" },
          { name := "one", path := .utf8 "/m/tests/one.rs" } ] }
    rfl).1

end Trybuild
